import Mathlib

/-!
Verification development for Leaflet.BigImage, a browser map-export plugin.
The repository holds two variants of the same control: a legacy build
(src/Leaflet.BigImage.js, attached to the global L object) and a modern
Leaflet-2.0 build (the BigImageControl class).  The modern class is the
current implementation; the legacy build is modelled separately where a
claim speaks about it.

Pixel coordinates are rationals (JS numbers restricted to the exact
arithmetic the code performs: +, -, *, /, floor), tile indices are
integers, and asynchronous settlement is modelled by explicit event data.
-/

namespace BigImage

/-- A point in device-pixel space, mirroring Leaflet Point (x, y). -/
structure Pt where
  x : ℚ
  y : ℚ
deriving DecidableEq, Repr

/-- Axis-aligned pixel bounds, mirroring Leaflet Bounds (min, max). -/
structure PixelBounds where
  min : Pt
  max : Pt
deriving DecidableEq, Repr

/-- Leaflet Point.subtract. -/
def Pt.subtract (p q : Pt) : Pt :=
  { x := p.x - q.x, y := p.y - q.y }

/-- Leaflet Point.scaleBy (componentwise multiplication). -/
def Pt.scaleBy (p q : Pt) : Pt :=
  { x := p.x * q.x, y := p.y * q.y }

/-- Leaflet Point.divideBy followed by the internal floor used by both
variants: bounds.min.divideBy(tileSize)._floor() componentwise, yielding
an integer tile index pair. -/
def divideByFloor (p : Pt) (tileSize : ℚ) : ℤ × ℤ :=
  (Int.floor (p.x / tileSize), Int.floor (p.y / tileSize))

/-- The per-export mutable state touched by the scale step: the captured
pixel bounds and the output canvas dimensions (initialised to the
viewport size before _applyScale runs). -/
structure ExportFrame where
  bounds : PixelBounds
  canvasW : ℚ
  canvasH : ℚ
deriving DecidableEq, Repr

/-- BigImageControl._applyScale (identical to the legacy _changeScale):
`if (!scale || scale <= 1) return;` then symmetric expansion of the
bounds by (extent/2)*(scale-1) on each axis and multiplication of both
canvas dimensions by the scale.  JS falsiness of the scale number (0 or
NaN coerced) is subsumed by scale <= 1 for the rational model. -/
def applyScale (scale : ℚ) (st : ExportFrame) : ExportFrame :=
  if scale ≤ 1 then st
  else
    let addX := (st.bounds.max.x - st.bounds.min.x) / 2 * (scale - 1)
    let addY := (st.bounds.max.y - st.bounds.min.y) / 2 * (scale - 1)
    { bounds :=
        { min := { x := st.bounds.min.x - addX, y := st.bounds.min.y - addY }
          max := { x := st.bounds.max.x + addX, y := st.bounds.max.y + addY } }
      canvasW := st.canvasW * scale
      canvasH := st.canvasH * scale }

/-- Closed integer interval [a, b] as a list, in the order the nested
for loops of _processTileLayer visit it. -/
def intRange (a b : ℤ) : List ℤ :=
  (List.range (b + 1 - a).toNat).map (fun (k : ℕ) => a + (k : ℤ))

/-- BigImageControl._processTileLayer tile enumeration: the tile bounds
are floor(bounds.min / tileSize) and floor(bounds.max / tileSize) (both
ends via Point._floor); the loops run j over rows and i over columns of
that closed range, skipping rows with j < 0, and issue one tile image
request per surviving index pair (i, j). -/
def processTileLayerTiles (bounds : PixelBounds) (tileSize : ℚ) : List (ℤ × ℤ) :=
  let tmin := divideByFloor bounds.min tileSize
  let tmax := divideByFloor bounds.max tileSize
  ((intRange tmin.2 tmax.2).filter (fun j => decide (0 ≤ j))).flatMap
    (fun j => (intRange tmin.1 tmax.1).map (fun i => (i, j)))

/-- Modelled from the spec: the requested-tile index set as the claim
words it, with min indices by floor division and max indices by ceiling
division of the bounds by the tile size, rows with negative index
excluded. -/
def specTileIndexSet (bounds : PixelBounds) (tileSize : ℚ) (i j : ℤ) : Prop :=
  Int.floor (bounds.min.x / tileSize) ≤ i ∧ i ≤ Int.ceil (bounds.max.x / tileSize) ∧
  Int.floor (bounds.min.y / tileSize) ≤ j ∧ j ≤ Int.ceil (bounds.max.y / tileSize) ∧
  0 ≤ j

instance (bounds : PixelBounds) (tileSize : ℚ) (i j : ℤ) :
    Decidable (specTileIndexSet bounds tileSize i j) := by
  unfold specTileIndexSet; infer_instance

/-- What the browser does with one dispatched tile image request, with
times in milliseconds after the request: the load event fires, the error
event fires, assigning image.src throws synchronously (getTileUrl may
throw), or no event ever fires. -/
inductive TileFetchEvent where
  | loaded (t : ℕ)
  | failed (t : ℕ)
  | srcThrows
  | silent
deriving DecidableEq, Repr

/-- The entry _loadTile records in the Tile Cache on a successful load. -/
structure TileCacheEntry where
  x : ℚ
  y : ℚ
  opacity : ℚ
  tileSize : ℚ
deriving DecidableEq, Repr

/-- The fixed per-tile timeout of _loadTile, in milliseconds. -/
def tileLoadTimeoutMs : ℕ := 10000

/-- BigImageControl._loadTile, reduced to the settlement of its promise:
a timer of tileLoadTimeoutMs resolves with no cache entry; onload clears
the timer and records {img, x, y, opacity ?? 1, tileSize}; onerror
clears the timer and resolves with no entry; a throw from assigning
image.src resolves immediately with no entry.  The result is the time at
which the promise resolves paired with the cache entry written. -/
def loadTile (tilePos : Pt) (opacity : Option ℚ) (tileSize : ℚ)
    (ev : TileFetchEvent) : ℕ × Option TileCacheEntry :=
  match ev with
  | .loaded t =>
      if t < tileLoadTimeoutMs then
        (t, some { x := tilePos.x, y := tilePos.y
                   opacity := opacity.getD 1, tileSize := tileSize })
      else (tileLoadTimeoutMs, none)
  | .failed t =>
      if t < tileLoadTimeoutMs then (t, none) else (tileLoadTimeoutMs, none)
  | .srcThrows => (0, none)
  | .silent => (tileLoadTimeoutMs, none)

/-- A tile fetch counts as a timely success exactly when the load event
fires strictly before the timeout timer. -/
def TileFetchEvent.isTimelySuccess (ev : TileFetchEvent) : Bool :=
  match ev with
  | .loaded t => decide (t < tileLoadTimeoutMs)
  | _ => false

/-- The raw value of the number-type scale input.  The browser sanitises
a number input so that reading .value yields either the empty string or
a decimal numeral; the field is therefore none (empty / absent /
rejected non-numeric text) or some rational. -/
def ScaleField : Type := Option ℚ

/-- BigImageControl._validateScale applied to Number(value): Number of
the empty string is 0, so an absent field coerces to 0; the check is
scale && scale >= minScale && scale <= maxScale, where the bare scale
conjunct is JS truthiness of the number (0 is falsy). -/
def validateScale (minScale maxScale : ℚ) (field : Option ℚ) : Bool :=
  let scale := field.getD 0
  decide (scale ≠ 0) && decide (minScale ≤ scale) && decide (scale ≤ maxScale)

/-- Legacy download-button check on the raw string value: the guard
!scale_value || scale_value < minScale || scale_value > maxScale, where
the empty string is falsy and a numeral string compares numerically
(note that a zero numeral string is still truthy). True means reset-and-abort. -/
def legacyScaleCheckFails (minScale maxScale : ℚ) (field : Option ℚ) : Bool :=
  match field with
  | none => true
  | some v => decide (v < minScale) || decide (v > maxScale)

/-- Control-panel state visible to _handleDownload. -/
structure CtrlState where
  isProcessing : Bool
  scaleField : Option ℚ
  progressShown : Bool
deriving DecidableEq, Repr

/-- How the awaited export body (_generateAndDownloadImage) settles:
normally, or by throwing some exception during Collect or Render. -/
inductive ExportRun where
  | ok
  | throws
deriving DecidableEq, Repr

/-- Observable outcome of one click of the download button. -/
structure DownloadOutcome where
  final : CtrlState
  exportStarted : Bool
  alerts : ℕ
deriving DecidableEq, Repr

/-- BigImageControl._handleDownload: return at once when isProcessing;
otherwise validate the coerced scale, resetting the field to minScale
and aborting when invalid; otherwise set the busy flag, show progress,
await the export body inside try/catch/finally — the catch arm logs and
raises exactly one alert, and the finally arm always clears the busy
flag and hides the progress indicator. -/
def handleDownload (minScale maxScale : ℚ) (st : CtrlState) (run : ExportRun) :
    DownloadOutcome :=
  if st.isProcessing then
    { final := st, exportStarted := false, alerts := 0 }
  else if validateScale minScale maxScale st.scaleField = false then
    { final := { st with scaleField := some minScale }
      exportStarted := false, alerts := 0 }
  else
    { final := { st with isProcessing := false, progressShown := false }
      exportStarted := true
      alerts := match run with | .ok => 0 | .throws => 1 }

/-- The control state while the awaited export body is still pending:
_handleDownload has set isProcessing and shown the progress indicator,
and the finally block has not yet run. -/
def midExportState (st : CtrlState) : CtrlState :=
  { st with isProcessing := true, progressShown := true }

/-- BigImageControl._isPointVisible: a projected point is inside the
canvas when both coordinates are at least 0 and at most the canvas
width / height. -/
def isPointVisible (w h : ℚ) (p : Pt) : Bool :=
  decide (0 ≤ p.x) && decide (0 ≤ p.y) && decide (p.x ≤ w) && decide (p.y ≤ h)

/-- BigImageControl._processPath: skip layers with an _mRadius (circles
in disguise) or without a vertex list; otherwise project each vertex
(the host map projection is applied by the caller, so the input list
already holds map-projected points, after ring selection and
flattening), subtract bounds.min from each, and register
{parts, closed := fill} only when some projected vertex is visible. -/
def processPath (bmin : Pt) (w h : ℚ) (mRadius : Option ℚ)
    (projectedLatlngs : Option (List Pt)) (fill : Bool) :
    Option (List Pt × Bool) :=
  match mRadius, projectedLatlngs with
  | some _, _ => none
  | none, none => none
  | none, some pts =>
      let parts := pts.map (fun p => p.subtract bmin)
      if parts.any (fun p => isPointVisible w h p) then some (parts, fill)
      else none

/-- One 2D-canvas operation issued by the Render phase, as recorded in
order of issue. -/
inductive CanvasOp where
  | setFillStyle (style : String)
  | fillRect (x y w h : ℚ)
  | setGlobalAlpha (a : ℚ)
  | drawImage (x y : ℚ) (w h : Option ℚ)
  | beginPath
  | moveTo (x y : ℚ)
  | lineTo (x y : ℚ)
  | closePath
  | setLineDash (dash : List ℚ)
  | setLineWidth (w : ℚ)
  | setStrokeStyle (style : String)
  | setLineCap (c : String)
  | setLineJoin (j : String)
  | fillOp (rule : String)
  | strokeOp
  | setFont (f : String)
  | strokeText (s : String) (x y : ℚ)
  | fillText (s : String) (x y : ℚ)
  | arc (x y r : ℚ)
  | saveOp
  | restoreOp
  | scaleOp (sx sy : ℚ)
deriving DecidableEq, Repr

/-- The pieces of 2D-context state the claims observe, plus the ordered
log of issued operations. -/
structure Ctx where
  ops : List CanvasOp
  globalAlpha : ℚ
  fillStyle : String
deriving DecidableEq, Repr

/-- A fresh 2D context: globalAlpha 1, black fill style, nothing drawn. -/
def Ctx.fresh : Ctx :=
  { ops := [], globalAlpha := 1, fillStyle := "#000000" }

/-- Record one operation in the log. -/
def Ctx.rec1 (c : Ctx) (op : CanvasOp) : Ctx :=
  { c with ops := c.ops ++ [op] }

/-- Record a list of operations in the log. -/
def Ctx.recs (c : Ctx) (l : List CanvasOp) : Ctx :=
  { c with ops := c.ops ++ l }

/-- Assignment ctx.globalAlpha = a. -/
def Ctx.setAlpha (c : Ctx) (a : ℚ) : Ctx :=
  { c with ops := c.ops ++ [CanvasOp.setGlobalAlpha a], globalAlpha := a }

/-- Assignment ctx.fillStyle = s. -/
def Ctx.setFill (c : Ctx) (s : String) : Ctx :=
  { c with ops := c.ops ++ [CanvasOp.setFillStyle s], fillStyle := s }

/-- Style options carried by a cached path or read off a circle layer,
after the option-object lookups the draw code performs. -/
structure PathStyle where
  fill : Bool
  fillOpacity : Option ℚ
  fillColor : Option String
  color : Option String
  fillRule : Option String
  strokeNotFalse : Bool
  weight : Option ℚ
  dashArray : Option (List ℚ)
  opacity : Option ℚ
  lineCap : Option String
  lineJoin : Option String
deriving DecidableEq, Repr

/-- BigImageControl._applyPathStyle: when fill is set, globalAlpha :=
fillOpacity ?? 0.2, fillStyle := fillColor || color || the default blue,
and fill with fillRule || evenodd; when stroke is not explicitly false
and (weight ?? 3) is nonzero, set the dash array (dashArray || []),
globalAlpha := opacity ?? 1, lineWidth := weight ?? 3, strokeStyle :=
color || default, lineCap / lineJoin with round defaults, and stroke;
finally globalAlpha := 1. -/
def applyPathStyle (o : PathStyle) (c : Ctx) : Ctx :=
  let c :=
    if o.fill then
      (((c.setAlpha (o.fillOpacity.getD (1 / 5))).setFill
          ((o.fillColor.or o.color).getD ("#3388ff"))).rec1
        (CanvasOp.fillOp (o.fillRule.getD ("evenodd"))))
    else c
  let c :=
    if o.strokeNotFalse && decide (o.weight.getD 3 ≠ 0) then
      ((((((c.rec1 (CanvasOp.setLineDash (o.dashArray.getD []))).setAlpha
            (o.opacity.getD 1)).rec1
            (CanvasOp.setLineWidth (o.weight.getD 3))).rec1
            (CanvasOp.setStrokeStyle (o.color.getD ("#3388ff")))).recs
            [CanvasOp.setLineCap (o.lineCap.getD ("round")),
             CanvasOp.setLineJoin (o.lineJoin.getD ("round"))]).rec1
        CanvasOp.strokeOp)
    else c
  c.setAlpha 1

/-- A Path Cache entry: projected point sequence, closed flag, style. -/
structure PathEntry where
  parts : List Pt
  closed : Bool
  options : PathStyle
deriving DecidableEq, Repr

/-- The moveTo / lineTo sequence of _drawPath: moveTo for index 0,
lineTo for every later vertex. -/
def pathSegmentOps (parts : List Pt) : List CanvasOp :=
  match parts with
  | [] => []
  | p :: rest =>
      CanvasOp.moveTo p.x p.y :: rest.map (fun q => CanvasOp.lineTo q.x q.y)

/-- BigImageControl._drawPath: beginPath, the moveTo / lineTo walk over
parts, closePath when the closed flag is set, then _applyPathStyle. -/
def drawPath (p : PathEntry) (c : Ctx) : Ctx :=
  let c := (c.rec1 CanvasOp.beginPath).recs (pathSegmentOps p.parts)
  let c := if p.closed then c.rec1 CanvasOp.closePath else c
  applyPathStyle p.options c

/-- A Marker Cache entry: an icon image or literal html text, with its
destination point. -/
inductive MarkerEntry where
  | img (x y : ℚ)
  | text (html : String) (x y : ℚ)
deriving DecidableEq, Repr

/-- BigImageControl._drawText: remember the previous fillStyle, set the
font, black fill, white stroke of width 2, strokeText then fillText,
then restore the previous fillStyle. -/
def drawText (s : String) (x y : ℚ) (c : Ctx) : Ctx :=
  let prev := c.fillStyle
  let c := (((c.rec1 (CanvasOp.setFont ("16px Arial"))).setFill ("black")).recs
    [CanvasOp.setStrokeStyle ("white"), CanvasOp.setLineWidth 2,
     CanvasOp.strokeText s x y, CanvasOp.fillText s x y])
  c.setFill prev

/-- BigImageControl._renderMarkers body for one marker: html markers go
through _drawText, image markers through a plain two-argument
drawImage. -/
def drawMarker (m : MarkerEntry) (c : Ctx) : Ctx :=
  match m with
  | .img x y => c.rec1 (CanvasOp.drawImage x y none none)
  | .text s x y => drawText s x y c

/-- JS Math.round on the exact rational model (round half toward
positive infinity). -/
def jsRound (q : ℚ) : ℤ :=
  Int.floor (q + 1 / 2)

/-- A Circle Cache entry: the live layer data _drawCircle reads at draw
time.  The point is already projected and shifted by bounds.min (the
projection itself is the host map). -/
structure CircleEntry where
  emptyFlag : Bool
  point : Pt
  radius : ℚ
  radiusY : Option ℚ
  options : PathStyle
deriving DecidableEq, Repr

/-- BigImageControl._drawCircle: skip empty circles; r :=
max(round(_radius), 1); s := (max(round(_radiusY), 1) || r) / r, where a
missing _radiusY makes the max NaN, which is falsy, so s falls back to
r / r = 1; when s is not 1, save and apply a vertical scale around the
arc, restoring right after; beginPath and arc at (x, y / s, r); then
_applyPathStyle on the layer options. -/
def drawCircle (e : CircleEntry) (c : Ctx) : Ctx :=
  if e.emptyFlag then c
  else
    let r : ℚ := ((max (jsRound e.radius) 1 : ℤ) : ℚ)
    let s : ℚ :=
      match e.radiusY with
      | none => 1
      | some ry => ((max (jsRound ry) 1 : ℤ) : ℚ) / r
    let c :=
      if s ≠ 1 then (c.rec1 CanvasOp.saveOp).rec1 (CanvasOp.scaleOp 1 s) else c
    let c := (c.rec1 CanvasOp.beginPath).rec1 (CanvasOp.arc e.point.x (e.point.y / s) r)
    let c := if s ≠ 1 then c.rec1 CanvasOp.restoreOp else c
    applyPathStyle e.options c

/-- One tile draw of _renderTiles: globalAlpha := the stored tile
opacity, then drawImage at the stored position with the stored per-tile
size for both width and height. -/
def drawTileStep (c : Ctx) (t : TileCacheEntry) : Ctx :=
  (c.setAlpha t.opacity).rec1
    (CanvasOp.drawImage t.x t.y (some t.tileSize) (some t.tileSize))

/-- BigImageControl._renderTiles: for every cached tile layer, for every
cached tile of it, one drawTileStep; after both loops one reset of
globalAlpha to 1. -/
def renderTiles (tileLayers : List (List TileCacheEntry)) (c : Ctx) : Ctx :=
  (tileLayers.foldl (fun acc layerTiles => layerTiles.foldl drawTileStep acc) c).setAlpha 1

/-- BigImageControl._renderPaths. -/
def renderPaths (paths : List PathEntry) (c : Ctx) : Ctx :=
  paths.foldl (fun acc p => drawPath p acc) c

/-- BigImageControl._renderMarkers. -/
def renderMarkers (markers : List MarkerEntry) (c : Ctx) : Ctx :=
  markers.foldl (fun acc m => drawMarker m acc) c

/-- BigImageControl._renderCircles. -/
def renderCircles (circles : List CircleEntry) (c : Ctx) : Ctx :=
  circles.foldl (fun acc e => drawCircle e acc) c

/-- The four caches the Collect phase filled, in their iteration
(insertion) order. -/
structure Caches where
  tileLayers : List (List TileCacheEntry)
  paths : List PathEntry
  markers : List MarkerEntry
  circles : List CircleEntry
deriving DecidableEq, Repr

/-- Caches of a map with zero layers. -/
def Caches.empty : Caches :=
  { tileLayers := [], paths := [], markers := [], circles := [] }

/-- BigImageControl._renderToCanvas: white background fill over the full
canvas, then tiles, then paths, then markers, then circles, in one
synchronous pass. -/
def renderToCanvas (w h : ℚ) (k : Caches) (c : Ctx) : Ctx :=
  let c := (c.setFill ("white")).rec1 (CanvasOp.fillRect 0 0 w h)
  let c := renderTiles k.tileLayers c
  let c := renderPaths k.paths c
  let c := renderMarkers k.markers c
  renderCircles k.circles c

/-- Result of one run of _generateAndDownloadImage. -/
structure ExportResult where
  canvasW : ℚ
  canvasH : ℚ
  ops : List CanvasOp
  downloadTriggered : Bool
  alerts : ℕ
deriving DecidableEq, Repr

/-- BigImageControl._downloadCanvas: encoding may yield no blob, in
which case one alert fires and nothing downloads; otherwise the
generated link is clicked. -/
def downloadCanvas (blobOk : Bool) : Bool × ℕ :=
  if blobOk then (true, 0) else (false, 1)

/-- BigImageControl._generateAndDownloadImage: fresh canvas at the
viewport size, capture bounds, _applyScale, Collect (whose resulting
caches are a parameter here, since asset fetching is the outside world),
_renderToCanvas, then _downloadCanvas. -/
def generateAndDownloadImage (viewportW viewportH scale : ℚ)
    (bounds : PixelBounds) (k : Caches) (blobOk : Bool) : ExportResult :=
  let frame := applyScale scale
    { bounds := bounds, canvasW := viewportW, canvasH := viewportH }
  let ctx := renderToCanvas frame.canvasW frame.canvasH k Ctx.fresh
  let dl := downloadCanvas blobOk
  { canvasW := frame.canvasW, canvasH := frame.canvasH, ops := ctx.ops
    downloadTriggered := dl.1, alerts := dl.2 }

/-- A legacy-variant tile layer: its tile size (_tileSize.x) paired with
the tile images cached for it. -/
structure LegacyTileImg where
  x : ℚ
  y : ℚ
deriving DecidableEq, Repr

/-- Legacy _getTileLayer side effect on the shared field: each processed
tile layer overwrites self.tileSize with its own size; _getLayers
dispatches the layer callbacks synchronously in layer order, so the last
tile layer wins. -/
def legacyCollectTileSize (layers : List (ℚ × List LegacyTileImg))
    (init : Option ℚ) : Option ℚ :=
  layers.foldl (fun _acc l => some l.1) init

/-- Legacy _print tile pass: every cached tile image of every layer is
drawn with the single shared self.tileSize left over from Collect. -/
def legacyPrintTileDraws (layers : List (ℚ × List LegacyTileImg)) : List CanvasOp :=
  let ts := (legacyCollectTileSize layers none).getD 0
  layers.flatMap (fun l =>
    l.2.map (fun t => CanvasOp.drawImage t.x t.y (some ts) (some ts)))

/-! ## Helper lemmas -/

lemma validateScale_eq_true_iff (mn mx : ℚ) (f : Option ℚ) :
    validateScale mn mx f = true ↔
      (f.getD 0 ≠ 0 ∧ mn ≤ f.getD 0 ∧ f.getD 0 ≤ mx) := by
  unfold validateScale
  simp [Bool.and_eq_true, decide_eq_true_eq, and_assoc]

lemma validateScale_eq_false_iff (mn mx : ℚ) (f : Option ℚ) :
    validateScale mn mx f = false ↔
      (f.getD 0 = 0 ∨ f.getD 0 < mn ∨ mx < f.getD 0) := by
  rw [← Bool.not_eq_true, validateScale_eq_true_iff]
  simp only [not_and_or, not_not, not_le, or_assoc]

lemma mem_intRange {a b x : ℤ} : x ∈ intRange a b ↔ a ≤ x ∧ x ≤ b := by
  unfold intRange
  constructor
  · intro hx
    obtain ⟨k, hk, rfl⟩ := List.mem_map.mp hx
    have := List.mem_range.mp hk
    omega
  · intro h
    apply List.mem_map.mpr
    exact ⟨(x - a).toNat, List.mem_range.mpr (by omega), by omega⟩

lemma processTileLayerTiles_mem_iff (bounds : PixelBounds) (tileSize : ℚ)
    (i j : ℤ) :
    (i, j) ∈ processTileLayerTiles bounds tileSize ↔
      (Int.floor (bounds.min.x / tileSize) ≤ i ∧
       i ≤ Int.floor (bounds.max.x / tileSize) ∧
       Int.floor (bounds.min.y / tileSize) ≤ j ∧
       j ≤ Int.floor (bounds.max.y / tileSize) ∧
       0 ≤ j) := by
  unfold processTileLayerTiles divideByFloor
  constructor
  · intro hx
    obtain ⟨j0, hj0, hij⟩ := List.mem_flatMap.mp hx
    obtain ⟨i0, hi0, heq⟩ := List.mem_map.mp hij
    obtain ⟨hjr, hjpos⟩ := List.mem_filter.mp hj0
    obtain ⟨rfl, rfl⟩ := Prod.ext_iff.mp heq
    have hji := mem_intRange.mp hjr
    have hii := mem_intRange.mp hi0
    exact ⟨hii.1, hii.2, hji.1, hji.2, of_decide_eq_true hjpos⟩
  · rintro ⟨h1, h2, h3, h4, h5⟩
    apply List.mem_flatMap.mpr
    refine ⟨j, List.mem_filter.mpr ⟨mem_intRange.mpr ⟨h3, h4⟩, decide_eq_true h5⟩, ?_⟩
    exact List.mem_map.mpr ⟨i, mem_intRange.mpr ⟨h1, h2⟩, rfl⟩

/-! ## Claim theorems -/

/-- C3: for scale s > 1 the Expand step grows the captured bounds
symmetrically by (extent/2)*(s-1) on each axis, multiplies both canvas
dimensions by s, and keeps the center of the bounds; for s <= 1 the
frame is unchanged, so at s = 1 the output canvas keeps exactly the
viewport dimensions. -/
theorem applyScale_spec (s : ℚ) (st : ExportFrame) :
    (1 < s →
      applyScale s st =
        { bounds :=
            { min :=
                { x := st.bounds.min.x - (st.bounds.max.x - st.bounds.min.x) / 2 * (s - 1)
                  y := st.bounds.min.y - (st.bounds.max.y - st.bounds.min.y) / 2 * (s - 1) }
              max :=
                { x := st.bounds.max.x + (st.bounds.max.x - st.bounds.min.x) / 2 * (s - 1)
                  y := st.bounds.max.y + (st.bounds.max.y - st.bounds.min.y) / 2 * (s - 1) } }
          canvasW := st.canvasW * s
          canvasH := st.canvasH * s } ∧
      (applyScale s st).bounds.min.x + (applyScale s st).bounds.max.x
          = st.bounds.min.x + st.bounds.max.x ∧
      (applyScale s st).bounds.min.y + (applyScale s st).bounds.max.y
          = st.bounds.min.y + st.bounds.max.y) ∧
    (s ≤ 1 → applyScale s st = st) ∧
    (∀ (vw vh : ℚ) (b : PixelBounds) (k : Caches) (ok : Bool),
      (generateAndDownloadImage vw vh 1 b k ok).canvasW = vw ∧
      (generateAndDownloadImage vw vh 1 b k ok).canvasH = vh) := by
  refine ⟨fun h => ?_, fun h => ?_, fun vw vh b k ok => ?_⟩
  · have hns : ¬ s ≤ 1 := not_le.mpr h
    have heq : applyScale s st =
        { bounds :=
            { min :=
                { x := st.bounds.min.x - (st.bounds.max.x - st.bounds.min.x) / 2 * (s - 1)
                  y := st.bounds.min.y - (st.bounds.max.y - st.bounds.min.y) / 2 * (s - 1) }
              max :=
                { x := st.bounds.max.x + (st.bounds.max.x - st.bounds.min.x) / 2 * (s - 1)
                  y := st.bounds.max.y + (st.bounds.max.y - st.bounds.min.y) / 2 * (s - 1) } }
          canvasW := st.canvasW * s
          canvasH := st.canvasH * s } := by
      unfold applyScale
      rw [if_neg hns]
    refine ⟨heq, ?_, ?_⟩ <;> rw [heq] <;> ring
  · simp [applyScale, h]
  · refine ⟨?_, ?_⟩ <;> simp [generateAndDownloadImage, applyScale]

/-- Witness for C3 at scale 2 on a concrete frame. -/
theorem applyScale_spec_witness :
    (1 : ℚ) < 2 ∧
    (applyScale 2
      { bounds := { min := { x := 0, y := 0 }, max := { x := 100, y := 50 } }
        canvasW := 100, canvasH := 50 }).canvasW = 200 := by
  constructor
  · norm_num
  · have h := (applyScale_spec 2
      { bounds := { min := { x := 0, y := 0 }, max := { x := 100, y := 50 } }
        canvasW := 100, canvasH := 50 }).1 (by norm_num)
    rw [h.1]
    norm_num

/-- C2 counterexample: with bounds (0,0)..(300,300) and tile size 256,
the index pair (2, 0) lies in the claimed set (max index by ceiling
division, ceil(300/256) = 2) but the code never requests it, because
_processTileLayer floors both ends of the tile range
(floor(300/256) = 1). -/
theorem tile_range_ceiling_counterexample :
    specTileIndexSet
      { min := { x := 0, y := 0 }, max := { x := 300, y := 300 } } 256 2 0 ∧
    (2, 0) ∉ processTileLayerTiles
      { min := { x := 0, y := 0 }, max := { x := 300, y := 300 } } 256 := by
  have hceil : (1 : ℤ) < ⌈(300 : ℚ) / 256⌉ := by
    rw [Int.lt_ceil]
    norm_num
  constructor
  · unfold specTileIndexSet
    refine ⟨?_, ?_, ?_, ?_, le_refl 0⟩
    · show (⌊(0 : ℚ) / 256⌋ : ℤ) ≤ 2
      norm_num
    · show (2 : ℤ) ≤ ⌈(300 : ℚ) / 256⌉
      omega
    · show (⌊(0 : ℚ) / 256⌋ : ℤ) ≤ 0
      norm_num
    · show (0 : ℤ) ≤ ⌈(300 : ℚ) / 256⌉
      omega
  · intro hmem
    have h2 : (2 : ℤ) ≤ ⌊(300 : ℚ) / 256⌋ :=
      ((processTileLayerTiles_mem_iff _ _ 2 0).mp hmem).2.1
    have hfl : (⌊(300 : ℚ) / 256⌋ : ℤ) = 1 := by
      norm_num [Int.floor_eq_iff]
    omega

/-- C2 amended: the set of requested tile indices is exactly the pairs
(i, j) with floor(bounds.min/tileSize) <= i, j and i, j <=
floor(bounds.max/tileSize) (floor division at BOTH ends, not ceiling at
the max end) and j >= 0. -/
theorem mem_processTileLayerTiles (bounds : PixelBounds) (tileSize : ℚ) (i j : ℤ) :
    (i, j) ∈ processTileLayerTiles bounds tileSize ↔
      (Int.floor (bounds.min.x / tileSize) ≤ i ∧
       i ≤ Int.floor (bounds.max.x / tileSize) ∧
       Int.floor (bounds.min.y / tileSize) ≤ j ∧
       j ≤ Int.floor (bounds.max.y / tileSize) ∧
       0 ≤ j) :=
  processTileLayerTiles_mem_iff bounds tileSize i j

/-- C1: every dispatched tile fetch that fails to load, throws on source
assignment, hangs forever, or loads only after the timeout still settles
its per-tile promise no later than the fixed timeout, and in all those
cases no entry is written to the Tile Cache, so a missing tile leaves a
gap and never blocks the export past the timeout window. -/
theorem loadTile_failure_settles (pos : Pt) (opacity : Option ℚ) (ts : ℚ)
    (ev : TileFetchEvent) :
    (loadTile pos opacity ts ev).1 ≤ tileLoadTimeoutMs ∧
    (ev.isTimelySuccess = false → (loadTile pos opacity ts ev).2 = none) := by
  constructor
  · cases ev with
    | loaded t =>
        by_cases h : t < tileLoadTimeoutMs <;> simp [loadTile, h]
        omega
    | failed t =>
        by_cases h : t < tileLoadTimeoutMs <;> simp [loadTile, h]
        omega
    | srcThrows => simp [loadTile]
    | silent => simp [loadTile]
  · intro hfail
    cases ev with
    | loaded t =>
        have h : ¬ t < tileLoadTimeoutMs := by
          simpa [TileFetchEvent.isTimelySuccess] using hfail
        simp [loadTile, h]
    | failed t =>
        by_cases h : t < tileLoadTimeoutMs <;> simp [loadTile, h]
    | srcThrows => simp [loadTile]
    | silent => simp [loadTile]

/-- Witness for C1 on a tile whose error event fires after 500 ms. -/
theorem loadTile_failure_settles_witness :
    TileFetchEvent.isTimelySuccess (TileFetchEvent.failed 500) = false ∧
    (loadTile { x := 0, y := 0 } none 256 (TileFetchEvent.failed 500)).1
        ≤ tileLoadTimeoutMs ∧
    (loadTile { x := 0, y := 0 } none 256 (TileFetchEvent.failed 500)).2 = none := by
  refine ⟨rfl, ?_, ?_⟩
  · exact (loadTile_failure_settles { x := 0, y := 0 } none 256
      (TileFetchEvent.failed 500)).1
  · exact (loadTile_failure_settles { x := 0, y := 0 } none 256
      (TileFetchEvent.failed 500)).2 rfl

/-- C4 counterexample: configure minScale 0 and maxScale 10 and enter
the value 0; the value lies inside [minScale, maxScale], yet the click
handler performs no export (the bare scale conjunct of _validateScale
treats the number 0 as falsy) and resets the field, refuting the claim
that every in-range value proceeds. -/
theorem scale_zero_in_range_counterexample :
    (0 : ℚ) ≤ 0 ∧ (0 : ℚ) ≤ 10 ∧
    (handleDownload 0 10
      { isProcessing := false, scaleField := some 0, progressShown := false }
      ExportRun.ok).exportStarted = false ∧
    (handleDownload 0 10
      { isProcessing := false, scaleField := some 0, progressShown := false }
      ExportRun.ok).final.scaleField = some 0 := by
  refine ⟨le_refl 0, by norm_num, ?_, ?_⟩ <;>
    simp [handleDownload, validateScale]

/-- C4 amended: a click with the field absent, holding 0, or holding a
value outside [minScale, maxScale] starts no export work and resets the
field to minScale; a click with a NONZERO value inside the range starts
the export.  (The value 0 is rejected by JS truthiness even when
minScale <= 0 <= maxScale; an absent field coerces to 0 and is likewise
rejected, as the original claim states.) -/
theorem handleDownload_scale_validation (mn mx : ℚ) (st : CtrlState)
    (run : ExportRun) (hidle : st.isProcessing = false) :
    ((st.scaleField.getD 0 = 0 ∨ st.scaleField.getD 0 < mn ∨ mx < st.scaleField.getD 0) →
      (handleDownload mn mx st run).exportStarted = false ∧
      (handleDownload mn mx st run).final = { st with scaleField := some mn }) ∧
    ((st.scaleField.getD 0 ≠ 0 ∧ mn ≤ st.scaleField.getD 0 ∧ st.scaleField.getD 0 ≤ mx) →
      (handleDownload mn mx st run).exportStarted = true) := by
  constructor
  · intro hbad
    have hv : validateScale mn mx st.scaleField = false :=
      (validateScale_eq_false_iff mn mx st.scaleField).mpr hbad
    simp [handleDownload, hidle, hv]
  · intro hgood
    have hv : validateScale mn mx st.scaleField = true :=
      (validateScale_eq_true_iff mn mx st.scaleField).mpr hgood
    simp [handleDownload, hidle, hv]

/-- Witness for C4 amended: default bounds 1..10, value 5, idle panel. -/
theorem handleDownload_scale_validation_witness :
    (handleDownload 1 10
      { isProcessing := false, scaleField := some 5, progressShown := false }
      ExportRun.ok).exportStarted = true := by
  refine (handleDownload_scale_validation 1 10
    { isProcessing := false, scaleField := some 5, progressShown := false }
    ExportRun.ok rfl).2 ?_
  refine ⟨by norm_num, by norm_num, by norm_num⟩

/-- C5: a vector path layer (no _mRadius, with a vertex list) whose
projected vertices all fall outside the canvas is excluded from the Path
Cache; if at least one projected vertex is inside, the path is
registered with the full projected vertex list in its original order
together with the closed flag. -/
theorem processPath_visibility (bmin : Pt) (w h : ℚ) (pts : List Pt) (fill : Bool) :
    ((∀ p ∈ pts.map (fun p => p.subtract bmin), isPointVisible w h p = false) →
      processPath bmin w h none (some pts) fill = none) ∧
    ((∃ p ∈ pts.map (fun p => p.subtract bmin), isPointVisible w h p = true) →
      processPath bmin w h none (some pts) fill =
        some (pts.map (fun p => p.subtract bmin), fill)) := by
  constructor
  · intro hall
    unfold processPath
    have hany : (pts.map (fun p => p.subtract bmin)).any
        (fun p => isPointVisible w h p) = false := by
      rw [List.any_eq_false]
      intro p hp
      simp [hall p hp]
    simp [hany]
  · intro hex
    unfold processPath
    have hany : (pts.map (fun p => p.subtract bmin)).any
        (fun p => isPointVisible w h p) = true := by
      rw [List.any_eq_true]
      obtain ⟨p, hp, hvis⟩ := hex
      exact ⟨p, hp, hvis⟩
    simp [hany]

/-- Witness for C5: a single vertex at (50, 50) on a 100 x 100 canvas is
visible, so the path is cached with that vertex. -/
theorem processPath_visibility_witness :
    (∃ p ∈ [Pt.mk 50 50].map (fun p => p.subtract (Pt.mk 0 0)),
        isPointVisible 100 100 p = true) ∧
    processPath (Pt.mk 0 0) 100 100 none (some [Pt.mk 50 50]) false =
      some ([Pt.mk 50 50].map (fun p => p.subtract (Pt.mk 0 0)), false) := by
  have hvis : isPointVisible 100 100 (Pt.subtract (Pt.mk 50 50) (Pt.mk 0 0)) = true := by
    simp [isPointVisible, Pt.subtract]
    norm_num
  have hex : ∃ p ∈ [Pt.mk 50 50].map (fun p => p.subtract (Pt.mk 0 0)),
      isPointVisible 100 100 p = true := by
    refine ⟨Pt.subtract (Pt.mk 50 50) (Pt.mk 0 0), ?_, hvis⟩
    simp
  exact ⟨hex, (processPath_visibility (Pt.mk 0 0) 100 100 [Pt.mk 50 50] false).2 hex⟩

/-- C7: for every outcome of the awaited export body (normal completion
or a thrown exception from Collect or Render), _handleDownload returns
normally (the exception is swallowed by the top-level catch), the catch
arm surfaces exactly one alert on a throw and none otherwise, and the
finally arm leaves the control non-busy with the loading indicator
hidden in both cases. -/
theorem handleDownload_exception_safety (mn mx : ℚ) (st : CtrlState)
    (run : ExportRun) (hidle : st.isProcessing = false)
    (hvalid : validateScale mn mx st.scaleField = true) :
    (handleDownload mn mx st run).final.isProcessing = false ∧
    (handleDownload mn mx st run).final.progressShown = false ∧
    ((handleDownload mn mx st run).alerts
        = match run with | ExportRun.ok => 0 | ExportRun.throws => 1) := by
  refine ⟨?_, ?_, ?_⟩ <;> simp [handleDownload, hidle, hvalid]

/-- Witness for C7: scale 2 in 1..10, body throws; one alert, busy flag
cleared, indicator hidden. -/
theorem handleDownload_exception_safety_witness :
    validateScale 1 10 (some 2) = true ∧
    (handleDownload 1 10
      { isProcessing := false, scaleField := some 2, progressShown := false }
      ExportRun.throws).final.isProcessing = false ∧
    (handleDownload 1 10
      { isProcessing := false, scaleField := some 2, progressShown := false }
      ExportRun.throws).alerts = 1 := by
  have hv : validateScale 1 10 (some 2) = true := by
    rw [validateScale_eq_true_iff]
    norm_num
  have h := handleDownload_exception_safety 1 10
    { isProcessing := false, scaleField := some 2, progressShown := false }
    ExportRun.throws rfl hv
  exact ⟨hv, h.1, h.2.2⟩

/-- C8: a click that arrives while an export is in flight (the busy flag
set by _handleDownload before the await is still up) starts no export
and leaves the control state untouched; once the in-flight export
settles, the finally arm has cleared the busy flag and a new click with
a valid scale starts a fresh export. -/
theorem handleDownload_reentry_rejected (mn mx : ℚ) (st : CtrlState)
    (run run2 : ExportRun) (hidle : st.isProcessing = false)
    (hvalid : validateScale mn mx st.scaleField = true) :
    (handleDownload mn mx (midExportState st) run2).exportStarted = false ∧
    (handleDownload mn mx (midExportState st) run2).final = midExportState st ∧
    (handleDownload mn mx st run).final.isProcessing = false ∧
    (handleDownload mn mx (handleDownload mn mx st run).final run2).exportStarted
        = true := by
  refine ⟨?_, ?_, ?_, ?_⟩
  · simp [handleDownload, midExportState]
  · simp [handleDownload, midExportState]
  · simp [handleDownload, hidle, hvalid]
  · simp [handleDownload, hidle, hvalid]

/-- Witness for C8 with scale 2 in 1..10. -/
theorem handleDownload_reentry_rejected_witness :
    validateScale 1 10 (some 2) = true ∧
    (handleDownload 1 10
      (midExportState
        { isProcessing := false, scaleField := some 2, progressShown := false })
      ExportRun.ok).exportStarted = false := by
  have hv : validateScale 1 10 (some 2) = true := by
    rw [validateScale_eq_true_iff]
    norm_num
  exact ⟨hv, (handleDownload_reentry_rejected 1 10
    { isProcessing := false, scaleField := some 2, progressShown := false }
    ExportRun.ok ExportRun.ok rfl hv).1⟩

lemma legacyCollectTileSize_getLast (layers : List (ℚ × List LegacyTileImg))
    (lst : ℚ × List LegacyTileImg) (hl : layers.getLast? = some lst) :
    ∀ init : Option ℚ, legacyCollectTileSize layers init = some lst.1 := by
  induction layers with
  | nil => simp at hl
  | cons a tl ih =>
      intro init
      cases tl with
      | nil =>
          simp only [List.getLast?_singleton, Option.some.injEq] at hl
          subst hl
          rfl
      | cons b tl2 =>
          rw [List.getLast?_cons_cons] at hl
          exact ih hl (some a.1)

/-- C10: in the legacy variant the tile size is one shared per-control
field overwritten by each tile layer during the synchronous Collect
dispatch, so after Collect it holds the size of the LAST tile layer, and
the legacy _print pass draws every cached tile of every layer with that
single size — with two tile layers of different sizes, the first layer
is drawn with the second layer size rather than its own. -/
theorem legacy_tileSize_last_layer_wins (layers : List (ℚ × List LegacyTileImg))
    (lst : ℚ × List LegacyTileImg) (hl : layers.getLast? = some lst) :
    legacyCollectTileSize layers none = some lst.1 ∧
    ∀ op ∈ legacyPrintTileDraws layers, ∃ x y,
      op = CanvasOp.drawImage x y (some lst.1) (some lst.1) := by
  have hsz := legacyCollectTileSize_getLast layers lst hl none
  refine ⟨hsz, ?_⟩
  intro op hop
  unfold legacyPrintTileDraws at hop
  rw [hsz] at hop
  obtain ⟨l, _, hmap⟩ := List.mem_flatMap.mp hop
  obtain ⟨t, _, rfl⟩ := List.mem_map.mp hmap
  exact ⟨t.x, t.y, rfl⟩

/-- Witness for C10: layer A of tile size 256 processed before layer B
of tile size 512; the shared field ends at 512 and the cached tile of
layer A is drawn at size 512, not its own 256. -/
theorem legacy_tileSize_last_layer_wins_witness :
    ([((256 : ℚ), [LegacyTileImg.mk 0 0]),
      ((512 : ℚ), [LegacyTileImg.mk 10 20])].getLast?
        = some ((512 : ℚ), [LegacyTileImg.mk 10 20])) ∧
    legacyCollectTileSize
      [((256 : ℚ), [LegacyTileImg.mk 0 0]),
       ((512 : ℚ), [LegacyTileImg.mk 10 20])] none = some 512 ∧
    (256 : ℚ) ≠ 512 ∧
    (∀ op ∈ legacyPrintTileDraws
        [((256 : ℚ), [LegacyTileImg.mk 0 0]),
         ((512 : ℚ), [LegacyTileImg.mk 10 20])], ∃ x y,
      op = CanvasOp.drawImage x y (some (512 : ℚ)) (some (512 : ℚ))) := by
  have hl : ([((256 : ℚ), [LegacyTileImg.mk 0 0]),
      ((512 : ℚ), [LegacyTileImg.mk 10 20])].getLast?
        = some ((512 : ℚ), [LegacyTileImg.mk 10 20])) := rfl
  have h := legacy_tileSize_last_layer_wins
    [((256 : ℚ), [LegacyTileImg.mk 0 0]),
     ((512 : ℚ), [LegacyTileImg.mk 10 20])]
    ((512 : ℚ), [LegacyTileImg.mk 10 20]) hl
  exact ⟨hl, h.1, by norm_num, h.2⟩

/-- Operations that paint pixels, as opposed to pure context-state
changes and path construction. -/
def isDrawingOp : CanvasOp → Bool
  | CanvasOp.fillRect _ _ _ _ => true
  | CanvasOp.drawImage _ _ _ _ => true
  | CanvasOp.fillOp _ => true
  | CanvasOp.strokeOp => true
  | CanvasOp.strokeText _ _ _ => true
  | CanvasOp.fillText _ _ _ => true
  | _ => false

/-- A context transformer only appends to the operation log. -/
def AppendsOps (f : Ctx → Ctx) : Prop :=
  ∀ c : Ctx, ∃ e, (f c).ops = c.ops ++ e

lemma AppendsOps.comp {f g : Ctx → Ctx} (hf : AppendsOps f) (hg : AppendsOps g) :
    AppendsOps (fun c => g (f c)) := by
  intro c
  obtain ⟨e1, h1⟩ := hf c
  obtain ⟨e2, h2⟩ := hg (f c)
  exact ⟨e1 ++ e2, by rw [h2, h1, List.append_assoc]⟩

lemma appendsOps_foldl {α : Type} (step : Ctx → α → Ctx)
    (hstep : ∀ a, AppendsOps (fun c => step c a)) (l : List α) :
    AppendsOps (fun c => l.foldl step c) := by
  induction l with
  | nil => exact fun c => ⟨[], by simp⟩
  | cons a tl ih =>
      intro c
      obtain ⟨e1, h1⟩ := hstep a c
      obtain ⟨e2, h2⟩ := ih (step c a)
      refine ⟨e1 ++ e2, ?_⟩
      simp only [List.foldl_cons]
      rw [h2, h1, List.append_assoc]

lemma appendsOps_applyPathStyle (o : PathStyle) : AppendsOps (applyPathStyle o) := by
  intro c
  unfold applyPathStyle
  by_cases hf : o.fill = true <;>
    by_cases hs : (o.strokeNotFalse && decide (o.weight.getD 3 ≠ 0)) = true <;>
      (apply Exists.intro
       simp only [hf, hs, Bool.false_eq_true, if_true, if_false, Ctx.rec1, Ctx.recs,
         Ctx.setAlpha, Ctx.setFill, List.append_assoc]
       rfl)

lemma applyPathStyle_extends (o : PathStyle) (x c : Ctx)
    (hx : ∃ d, x.ops = c.ops ++ d) :
    ∃ w, (applyPathStyle o x).ops = c.ops ++ w := by
  obtain ⟨d, hd⟩ := hx
  obtain ⟨e, he⟩ := appendsOps_applyPathStyle o x
  exact ⟨d ++ e, by rw [he, hd, List.append_assoc]⟩

lemma appendsOps_drawPath (p : PathEntry) : AppendsOps (drawPath p) := by
  intro c
  unfold drawPath
  apply applyPathStyle_extends
  by_cases hc : p.closed = true <;>
    (apply Exists.intro
     simp only [hc, Bool.false_eq_true, if_true, if_false, Ctx.rec1, Ctx.recs,
       List.append_assoc]
     rfl)

lemma appendsOps_drawMarker (m : MarkerEntry) : AppendsOps (drawMarker m) := by
  intro c
  cases m with
  | img x y => exact ⟨[CanvasOp.drawImage x y none none], rfl⟩
  | text s x y =>
      apply Exists.intro
      simp only [drawMarker, drawText, Ctx.rec1, Ctx.recs, Ctx.setFill,
        List.append_assoc]
      rfl

lemma appendsOps_drawCircle (e : CircleEntry) : AppendsOps (drawCircle e) := by
  intro c
  unfold drawCircle
  by_cases hempty : e.emptyFlag = true
  · simp only [hempty, if_true]
    exact ⟨[], by simp⟩
  · simp only [hempty, Bool.false_eq_true, if_false]
    apply applyPathStyle_extends
    split <;> split <;>
      (apply Exists.intro
       simp only [Ctx.rec1, List.append_assoc]
       rfl)

lemma appendsOps_drawTileStep (t : TileCacheEntry) :
    AppendsOps (fun c => drawTileStep c t) := by
  intro c
  apply Exists.intro
  simp only [drawTileStep, Ctx.rec1, Ctx.setAlpha, List.append_assoc]
  rfl

lemma appendsOps_renderTiles (ts : List (List TileCacheEntry)) :
    AppendsOps (renderTiles ts) := by
  have hin : ∀ lt : List TileCacheEntry,
      AppendsOps (fun c => lt.foldl drawTileStep c) :=
    fun lt => appendsOps_foldl drawTileStep appendsOps_drawTileStep lt
  have hout : AppendsOps (fun c =>
      ts.foldl (fun acc layerTiles => layerTiles.foldl drawTileStep acc) c) :=
    appendsOps_foldl _ (fun lt => hin lt) ts
  intro c
  obtain ⟨e1, h1⟩ := hout c
  refine ⟨e1 ++ [CanvasOp.setGlobalAlpha 1], ?_⟩
  unfold renderTiles
  simp only [Ctx.setAlpha]
  rw [h1, List.append_assoc]

lemma appendsOps_renderPaths (ps : List PathEntry) : AppendsOps (renderPaths ps) :=
  appendsOps_foldl (fun acc p => drawPath p acc)
    (fun p => appendsOps_drawPath p) ps

lemma appendsOps_renderMarkers (ms : List MarkerEntry) :
    AppendsOps (renderMarkers ms) :=
  appendsOps_foldl (fun acc m => drawMarker m acc)
    (fun m => appendsOps_drawMarker m) ms

lemma appendsOps_renderCircles (cs : List CircleEntry) :
    AppendsOps (renderCircles cs) :=
  appendsOps_foldl (fun acc e => drawCircle e acc)
    (fun e => appendsOps_drawCircle e) cs

/-- C6: the Render phase is one synchronous pass in fixed order — the
operation log of _renderToCanvas decomposes as background fill (white
fillStyle plus full-canvas fillRect), then everything emitted by the
tile pass, then the path pass, then the marker pass, then the circle
pass; and an export over empty caches (a map with zero layers) still
paints exactly the background fillRect at the scaled dimensions and
triggers the download. -/
theorem renderToCanvas_order (w h : ℚ) (k : Caches) (c : Ctx) :
    (∃ tileOps pathOps markerOps circleOps,
      (renderToCanvas w h k c).ops =
          c.ops ++ [CanvasOp.setFillStyle ("white"), CanvasOp.fillRect 0 0 w h]
            ++ tileOps ++ pathOps ++ markerOps ++ circleOps ∧
      (renderTiles k.tileLayers
          ((c.setFill ("white")).rec1 (CanvasOp.fillRect 0 0 w h))).ops =
        ((c.setFill ("white")).rec1 (CanvasOp.fillRect 0 0 w h)).ops ++ tileOps ∧
      (renderPaths k.paths
          (renderTiles k.tileLayers
            ((c.setFill ("white")).rec1 (CanvasOp.fillRect 0 0 w h)))).ops =
        (renderTiles k.tileLayers
          ((c.setFill ("white")).rec1 (CanvasOp.fillRect 0 0 w h))).ops ++ pathOps) ∧
    (k = Caches.empty →
      (renderToCanvas w h k c).ops.filter isDrawingOp =
        c.ops.filter isDrawingOp ++ [CanvasOp.fillRect 0 0 w h]) ∧
    (∀ (vw vh : ℚ) (b : PixelBounds),
      (generateAndDownloadImage vw vh 1 b Caches.empty true).canvasW = vw ∧
      (generateAndDownloadImage vw vh 1 b Caches.empty true).canvasH = vh ∧
      (generateAndDownloadImage vw vh 1 b Caches.empty true).downloadTriggered
          = true ∧
      (generateAndDownloadImage vw vh 1 b Caches.empty true).ops.filter isDrawingOp
          = [CanvasOp.fillRect 0 0 vw vh]) := by
  refine ⟨?_, ?_, ?_⟩
  · set c1 := (c.setFill ("white")).rec1 (CanvasOp.fillRect 0 0 w h) with hc1
    set c2 := renderTiles k.tileLayers c1 with hc2
    set c3 := renderPaths k.paths c2 with hc3
    set c4 := renderMarkers k.markers c3 with hc4
    obtain ⟨tileOps, ht⟩ := appendsOps_renderTiles k.tileLayers c1
    obtain ⟨pathOps, hp⟩ := appendsOps_renderPaths k.paths c2
    obtain ⟨markerOps, hm⟩ := appendsOps_renderMarkers k.markers c3
    obtain ⟨circleOps, hc⟩ := appendsOps_renderCircles k.circles c4
    refine ⟨tileOps, pathOps, markerOps, circleOps, ?_, ?_, ?_⟩
    · have hrender : (renderToCanvas w h k c).ops = (renderCircles k.circles c4).ops := by
        rw [hc4, hc3, hc2, hc1]
        rfl
      rw [hrender, hc, hc4, hm, hc3, hp, hc2, ht, hc1]
      simp [Ctx.setFill, Ctx.rec1, List.append_assoc]
    · exact ht
    · exact hp
  · intro hk
    subst hk
    simp [renderToCanvas, renderTiles, renderPaths, renderMarkers, renderCircles,
      Caches.empty, Ctx.setFill, Ctx.rec1, Ctx.setAlpha, List.filter_append,
      isDrawingOp]
  · intro vw vh b
    refine ⟨?_, ?_, ?_, ?_⟩ <;>
      simp [generateAndDownloadImage, applyScale, downloadCanvas, Ctx.fresh,
        renderToCanvas, renderTiles, renderPaths, renderMarkers, renderCircles,
        Caches.empty, Ctx.setFill, Ctx.rec1, Ctx.setAlpha, List.filter_append,
        isDrawingOp]

/-- Witness for C6: a zero-layer export on a 30 x 20 viewport paints
exactly the background rectangle. -/
theorem renderToCanvas_order_witness :
    (renderToCanvas 30 20 Caches.empty Ctx.fresh).ops.filter isDrawingOp =
      [CanvasOp.fillRect 0 0 30 20] := by
  have h := (renderToCanvas_order 30 20 Caches.empty Ctx.fresh).2.1 rfl
  simpa [Ctx.fresh] using h

/-- Concrete tiles for the alpha-reset analysis: a half-transparent and
a quarter-transparent tile of the same layer. -/
def cexTileA : TileCacheEntry :=
  { x := 0, y := 0, opacity := 1 / 2, tileSize := 256 }

def cexTileB : TileCacheEntry :=
  { x := 256, y := 0, opacity := 1 / 4, tileSize := 256 }

/-- C9 counterexample: the tile pass of the Render phase passes through
the state reached right after drawing the first tile — where the global
alpha still holds that tile opacity of one half, not 1.  The single
reset to 1 happens only after ALL tile draws, so the claim that the
alpha is reset to the neutral value after every individual tile draw is
false. -/
theorem tile_alpha_not_reset_each_draw :
    renderTiles [[cexTileA, cexTileB]] Ctx.fresh =
      (drawTileStep (drawTileStep Ctx.fresh cexTileA) cexTileB).setAlpha 1 ∧
    (drawTileStep Ctx.fresh cexTileA).globalAlpha = 1 / 2 ∧
    ((1 : ℚ) / 2) ≠ 1 := by
  refine ⟨rfl, rfl, by norm_num⟩

/-- C9 amended: the global alpha is reset to the neutral value 1 after
each path draw and each (non-empty) circle draw, and once after the
whole tile pass; each individual tile draw sets the alpha to its own
stored opacity immediately before its drawImage, so no later draw
inherits the opacity of an earlier one even though the alpha is not
reset to 1 between consecutive tile draws. -/
theorem alpha_reset_discipline :
    (∀ (o : PathStyle) (c : Ctx), (applyPathStyle o c).globalAlpha = 1) ∧
    (∀ (p : PathEntry) (c : Ctx), (drawPath p c).globalAlpha = 1) ∧
    (∀ (e : CircleEntry) (c : Ctx), e.emptyFlag = false →
      (drawCircle e c).globalAlpha = 1) ∧
    (∀ (ts : List (List TileCacheEntry)) (c : Ctx),
      (renderTiles ts c).globalAlpha = 1) ∧
    (∀ (c : Ctx) (t : TileCacheEntry),
      (drawTileStep c t).globalAlpha = t.opacity ∧
      (drawTileStep c t).ops = c.ops ++
        [CanvasOp.setGlobalAlpha t.opacity,
         CanvasOp.drawImage t.x t.y (some t.tileSize) (some t.tileSize)]) := by
  refine ⟨fun o c => rfl, fun p c => rfl, ?_, fun ts c => rfl, ?_⟩
  · intro e c hempty
    simp only [drawCircle, hempty, Bool.false_eq_true, if_false]
    rfl
  · intro c t
    refine ⟨rfl, ?_⟩
    simp [drawTileStep, Ctx.setAlpha, Ctx.rec1]

/-- A concrete non-empty circle entry for the C9 witness. -/
def cexCircle : CircleEntry :=
  { emptyFlag := false
    point := { x := 10, y := 10 }
    radius := 5
    radiusY := none
    options :=
      { fill := false, fillOpacity := none, fillColor := none, color := none
        fillRule := none, strokeNotFalse := true, weight := none
        dashArray := none, opacity := none, lineCap := none, lineJoin := none } }

/-- Witness for C9 amended on a concrete non-empty circle. -/
theorem alpha_reset_discipline_witness :
    cexCircle.emptyFlag = false ∧
    (drawCircle cexCircle Ctx.fresh).globalAlpha = 1 :=
  ⟨rfl, alpha_reset_discipline.2.2.1 cexCircle Ctx.fresh rfl⟩

end BigImage
